import Mathlib

/-!
# Firestore Casbin adapter: rule codec, filter translation and persistence

A shallow embedding of `adapter.go` (package `firestoreadapter`).

* A Go `string` is an immutable sequence of bytes; it is modelled by
  `GoString := List UInt8`, so that `len`, `+`, `strings.Join` and the
  conversion `[]byte(s)` are operations on byte lists. `str "..."` is a Go
  string literal.
* A Go `int` is taken to be 64 bits wide; sums and differences wrap
  (`wrapInt`), and an index outside a slice is a panic (`none`).
* `meow.Checksum` belongs to an imported library and is a parameter
  (`Env.Checksum`); so is the encoding the Firestore client applies to a
  `CasbinRule` value handed to `Set` (`Env.toFields`).
* The Firestore client is modelled by a finite store of documents, document
  references, equality queries and write batches. A batch records the error
  of a `Set` whose data is not a document and refuses to commit when it is
  empty, as the client does; other failures of the store (network,
  permission, quota) are not modelled, so an operation that returns no error
  here is one on which the store reported none.
* A `range` over a Go map visits the keys in an unspecified order; a section
  of the policy model is a list, whose order is the order of that visit.
* The calls to `fmt.Printf` have no effect on the adapter or the store.
-/

namespace FirestoreAdapter

/-! ## Go strings -/

/-- A Go string: its bytes, in order. -/
abbrev GoString := List UInt8

/-- The Go string literal written with the given text (its UTF-8 bytes). -/
def str (s : String) : GoString := s.toUTF8.data.toList

/-- Go `strings.Join(elems, sep)`. -/
def stringsJoin : List GoString → GoString → GoString
  | [], _ => []
  | [a], _ => a
  | a :: b :: rest, sep => a ++ sep ++ stringsJoin (b :: rest) sep

/-- One lower-case hexadecimal digit, as a byte of text. -/
def hexDigit (n : Nat) : UInt8 :=
  if n < 10 then UInt8.ofNat (48 + n) else UInt8.ofNat (87 + n)

/-- Go `fmt.Sprintf("%x", sum)` for a byte array `sum`: two lower-case
hexadecimal digits per byte, most significant first, no separator. -/
def sprintfHex (sum : List UInt8) : GoString :=
  sum.flatMap (fun b => [hexDigit (b.toNat / 16), hexDigit (b.toNat % 16)])

/-! ## Data model -/

/-- The struct `CasbinRule`. -/
structure CasbinRule where
  ID : GoString := []
  PType : GoString := []
  V0 : GoString := []
  V1 : GoString := []
  V2 : GoString := []
  V3 : GoString := []
  V4 : GoString := []
  V5 : GoString := []
  deriving DecidableEq, Repr

/-- The fields of a stored document: field path and string value. -/
abbrev Fields := List (GoString × GoString)

/-- What the imported libraries contribute: the Meow checksum (seed, data) and
the encoding of a `CasbinRule` value as document fields. -/
structure Env where
  Checksum : Nat → List UInt8 → List UInt8
  toFields : CasbinRule → Fields

/-- Slot `V0` .. `V5` of a record by position (empty beyond `V5`). -/
def CasbinRule.slot (r : CasbinRule) : Nat → GoString
  | 0 => r.V0
  | 1 => r.V1
  | 2 => r.V2
  | 3 => r.V3
  | 4 => r.V4
  | 5 => r.V5
  | _ => []

/-! ## Rule codec -/

/-- The string `data` of `policyID`: `strings.Join(append([]string{ptype}, rule...), ",")`. -/
def policyData (ptype : GoString) (rule : List GoString) : GoString :=
  stringsJoin (ptype :: rule) (str ",")

/-- Function `policyID`. -/
def policyID (env : Env) (ptype : GoString) (rule : List GoString) : GoString :=
  let data := policyData ptype rule
  let sum := env.Checksum 0 data
  sprintfHex sum

/-- Function `savePolicyLine`. -/
def savePolicyLine (env : Env) (ptype : GoString) (rule : List GoString) : CasbinRule :=
  let line : CasbinRule := { PType := ptype }
  let l := rule.length
  let line := if l > 0 then { line with V0 := rule.getD 0 [] } else line
  let line := if l > 1 then { line with V1 := rule.getD 1 [] } else line
  let line := if l > 2 then { line with V2 := rule.getD 2 [] } else line
  let line := if l > 3 then { line with V3 := rule.getD 3 [] } else line
  let line := if l > 4 then { line with V4 := rule.getD 4 [] } else line
  let line := if l > 5 then { line with V5 := rule.getD 5 [] } else line
  { line with ID := policyID env ptype rule }

/-- Method `(*CasbinRule).String`. -/
def CasbinRule.String (r : CasbinRule) : GoString :=
  let prefixLine := str ", "
  let sb : GoString := []
  let sb := sb ++ r.PType
  let sb := if r.V0.length > 0 then sb ++ prefixLine ++ r.V0 else sb
  let sb := if r.V1.length > 0 then sb ++ prefixLine ++ r.V1 else sb
  let sb := if r.V2.length > 0 then sb ++ prefixLine ++ r.V2 else sb
  let sb := if r.V3.length > 0 then sb ++ prefixLine ++ r.V3 else sb
  let sb := if r.V4.length > 0 then sb ++ prefixLine ++ r.V4 else sb
  let sb := if r.V5.length > 0 then sb ++ prefixLine ++ r.V5 else sb
  sb

/-- A stand-in checksum for evaluating examples: the first sixteen bytes of
the seed byte followed by the data, padded with zero bytes. -/
def sampleChecksum (seed : Nat) (data : List UInt8) : List UInt8 :=
  ((UInt8.ofNat seed :: data) ++ List.replicate 16 0).take 16

/-! ## Machine integers -/

/-- A Go `int` (64 bits, two's complement): the value an arithmetic result
wraps to. -/
def wrapInt (x : Int) : Int := (x + 2 ^ 63) % 2 ^ 64 - 2 ^ 63

/-- Go `s[i]` on a slice: `none` stands for the run-time panic on an index
outside `0 .. len(s) - 1`. -/
def index (s : List GoString) (i : Int) : Option GoString :=
  if 0 ≤ i ∧ i < s.length then s[i.toNat]? else none

/-! ## The document store -/

/-- A document reference: the collection it belongs to and its identifier. -/
structure DocRef where
  collection : GoString
  id : GoString
  deriving DecidableEq, Repr

/-- A Firestore query: the collection it ranges over and the equality
predicates (field path, value) added by `Where(path, "==", value)`. -/
structure Query where
  collection : GoString
  filters : List (GoString × GoString) := []
  deriving DecidableEq, Repr

/-- `CollectionRef.Query` / `Query.Where(path, "==", value)`. -/
def Query.Where (q : Query) (path value : GoString) : Query :=
  { q with filters := q.filters ++ [(path, value)] }

/-- A Go `error` value: its message. -/
abbrev GoError := String

/-- The Go value handed to `Set` as the document data (an `interface{}`). -/
inductive Data where
  /-- A (pointer to a) `CasbinRule` struct. -/
  | rule (line : CasbinRule)
  /-- A `[]string`. -/
  | strings (xs : List GoString)
  deriving DecidableEq, Repr

/-- The client turns document data into a field map; only a struct (or map)
converts, a slice is rejected ("cannot convert value into a map"). -/
def toProtoDocument (env : Env) : Data → Option Fields
  | .rule line => some (env.toFields line)
  | .strings _ => none

/-- A write request: `Set(doc, data)` or `Delete(doc)`. -/
inductive Write where
  | set (doc : DocRef) (data : Data)
  | delete (doc : DocRef)
  deriving DecidableEq, Repr

/-- The documents held by the database: reference and fields. The first entry
for a reference is the document; `put` and `erase` keep one entry per
reference. -/
abbrev Store := List (DocRef × Fields)

/-- The document at a reference, if it exists. -/
def Store.get (s : Store) (doc : DocRef) : Option Fields :=
  (s.find? (fun d => d.1 = doc)).map (fun d => d.2)

/-- The store without the document at the reference. -/
def Store.erase (s : Store) (doc : DocRef) : Store :=
  s.filter (fun d => d.1 ≠ doc)

/-- The store with the document at the reference created or replaced. -/
def Store.put (s : Store) (doc : DocRef) (fields : Fields) : Store :=
  (doc, fields) :: s.erase doc

/-- `Collection(name).DocumentRefs(ctx)` consumed to `iterator.Done`. -/
def Store.DocumentRefs (s : Store) (name : GoString) : List DocRef :=
  (s.filter (fun d => d.1.collection = name)).map (fun d => d.1)

/-- The value of a field of a document. -/
def fieldValue (fields : Fields) (path : GoString) : Option GoString :=
  (fields.find? (fun f => f.1 = path)).map (fun f => f.2)

/-- Whether a document satisfies every equality predicate of a query. -/
def Query.matches (q : Query) (fields : Fields) : Bool :=
  q.filters.all (fun f => fieldValue fields f.1 = some f.2)

/-- `query.Documents(ctx)` consumed to `iterator.Done`: the documents of the
collection that satisfy the predicates. -/
def Store.Documents (s : Store) (q : Query) : List (DocRef × Fields) :=
  s.filter (fun d => d.1.collection = q.collection ∧ q.matches d.2)

/-- `Collection(name).Doc(id)`; the name is taken to be a valid collection path. -/
def collectionDoc (name id : GoString) : DocRef := { collection := name, id := id }

/-- `Client.Doc(path)`: the path is split at `/`; it denotes a document when it
has an even number of identifiers, none empty. `none` is the nil reference. -/
def clientDoc (path : GoString) : Option DocRef :=
  let ids := path.splitOn 47
  if ids.any (fun id => id = []) then none
  else if ids.length % 2 = 0 then
    match ids.getLast? with
    | none => none
    | some id => some { collection := stringsJoin ids.dropLast (str "/"), id := id }
  else none

/-- The effect of one accepted write on the store. -/
def applyWrite (env : Env) (s : Store) : Write → Store
  | .set doc data =>
    match toProtoDocument env data with
    | some fields => s.put doc fields
    | none => s
  | .delete doc => s.erase doc

/-- A `WriteBatch`: the staged writes, in order. -/
structure WriteBatch where
  writes : List Write := []
  deriving DecidableEq, Repr

/-- `WriteBatch.Set(doc, data)`. -/
def WriteBatch.Set (b : WriteBatch) (doc : DocRef) (data : Data) : WriteBatch :=
  { writes := b.writes ++ [Write.set doc data] }

/-- `WriteBatch.Delete(doc)`. -/
def WriteBatch.Delete (b : WriteBatch) (doc : DocRef) : WriteBatch :=
  { writes := b.writes ++ [Write.delete doc] }

/-- Whether a staged write was accepted by the batch. -/
def Write.valid (env : Env) : Write → Bool
  | .set _ data => (toProtoDocument env data).isSome
  | .delete _ => true

/-- `WriteBatch.Commit(ctx)`: the error recorded while staging is returned
if there is one, an empty batch is refused, otherwise every write is applied,
in order, as one atomic unit. -/
def WriteBatch.Commit (env : Env) (b : WriteBatch) (s : Store) : Except GoError Store :=
  if ¬ b.writes.all (Write.valid env) then
    .error "firestore: cannot convert value into a map"
  else if b.writes = [] then
    .error "firestore: cannot commit empty WriteBatch"
  else
    .ok (b.writes.foldl (applyWrite env) s)

/-- `DocumentRef.Set(ctx, data)`. -/
def docSet (env : Env) (doc : DocRef) (data : Data) (s : Store) : Except GoError Store :=
  match toProtoDocument env data with
  | some fields => .ok (s.put doc fields)
  | none => .error "firestore: cannot convert value into a map"

/-- `DocumentRef.Delete(ctx)`; deleting an absent document succeeds. -/
def docDelete (doc : Option DocRef) (s : Store) : Except GoError Store :=
  match doc with
  | some d => .ok (s.erase d)
  | none => .error "firestore: nil DocumentRef"

/-! ## Filter translator -/

/-- One `if` statement of `RemoveFilteredPolicy`:
`if fieldIndex <= k && idx > k && fieldValues[k-fieldIndex] != ""` then
`query = query.Where(path, "==", fieldValues[k-fieldIndex])`.
The operator `&&` evaluates its right operand only when the left one holds. -/
def whereSlot (k : Int) (path : GoString) (fieldIndex idx : Int)
    (fieldValues : List GoString) (query : Query) : Option Query :=
  if fieldIndex ≤ k ∧ idx > k then
    match index fieldValues (wrapInt (k - fieldIndex)) with
    | none => none
    | some v => if v ≠ str "" then some (query.Where path v) else some query
  else some query

/-- The query built by `RemoveFilteredPolicy` (lines 296-316); `none` when an
index expression panics. -/
def removeFilteredQuery (collectionName ptype : GoString) (fieldIndex : Int)
    (fieldValues : List GoString) : Option Query := do
  let query := Query.Where { collection := collectionName } (str "p_type") ptype
  let idx := wrapInt (fieldIndex + fieldValues.length)
  let query ← whereSlot 0 (str "v0") fieldIndex idx fieldValues query
  let query ← whereSlot 1 (str "v1") fieldIndex idx fieldValues query
  let query ← whereSlot 2 (str "v2") fieldIndex idx fieldValues query
  let query ← whereSlot 3 (str "v3") fieldIndex idx fieldValues query
  let query ← whereSlot 4 (str "v4") fieldIndex idx fieldValues query
  let query ← whereSlot 5 (str "v5") fieldIndex idx fieldValues query
  pure query

/-- The field path of slot `k`: `v0` .. `v5`. -/
def slotPath (k : Nat) : GoString := str "v" ++ [UInt8.ofNat (48 + k)]

/-! ## The adapter -/

/-- The struct `Adapter`; its `firestoreClient` is the handle on the store,
which the operations below take and return explicitly. -/
structure Adapter where
  collectionName : GoString
  filtered : Bool
  deriving DecidableEq, Repr

/-- The type `Option` of the source: a function that updates the adapter. -/
abbrev AdapterOption := Adapter → Adapter

/-- Function `Collection`. -/
def Collection (coll : GoString) : AdapterOption :=
  fun a => { a with collectionName := coll }

/-- Function `NewAdapter`; `initErr` is the result of `initCasbinDatabase`,
which connects to the database. -/
def NewAdapter (initErr : Option GoError) (_options : List AdapterOption) :
    Adapter × Option GoError :=
  let a : Adapter := { collectionName := str "casbin_rule", filtered := false }
  let err := initErr
  (a, err)

/-- Method `IsFiltered`. -/
def Adapter.IsFiltered (a : Adapter) : Bool := a.filtered

/-- Method `docID`. -/
def Adapter.docID (a : Adapter) (id : GoString) : GoString :=
  a.collectionName ++ str "/" ++ id

/-- `Assertion` of the policy engine: the rules listed under one rule-type. -/
structure Assertion where
  Policy : List (List GoString)
  deriving DecidableEq, Repr

/-- A section of the model (`map[string]*Assertion`): rule-type and assertion,
in the order in which a `range` over the map visits them. -/
abbrev AssertionMap := List (GoString × Assertion)

/-- The model of the policy engine: section name and section. -/
abbrev Model := List (GoString × AssertionMap)

/-- Go `model[sec]`: the section, empty when the key is absent. -/
def Model.sec (model : Model) (sec : GoString) : AssertionMap :=
  ((model.find? (fun e => e.1 = sec)).map (fun e => e.2)).getD []

/-- What a call leaves behind: the error returned (`none` for `nil`), the
adapter, the store, and the write requests the call issued, in order. -/
structure Outcome where
  err : Option GoError
  adapter : Adapter
  store : Store
  writes : List Write
  deriving DecidableEq, Repr

/-- The outcome of committing a batch. -/
def commitOutcome (env : Env) (a : Adapter) (s : Store) (batch : WriteBatch) : Outcome :=
  match batch.Commit env s with
  | .ok s1 => { err := none, adapter := a, store := s1, writes := batch.writes }
  | .error e => { err := some e, adapter := a, store := s, writes := batch.writes }

/-- The loops of `SavePolicy` over one section of the model (lines 127-133 and
135-141). -/
def stageSection (env : Env) (a : Adapter) (sec : AssertionMap) (batch : WriteBatch) :
    WriteBatch :=
  sec.foldl (fun batch e =>
    e.2.Policy.foldl (fun batch rule =>
      let line := savePolicyLine env e.1 rule
      let doc := collectionDoc a.collectionName line.ID
      batch.Set doc (Data.rule line)) batch) batch

/-- Method `SavePolicy`. -/
def SavePolicy (env : Env) (a : Adapter) (s : Store) (model : Model) : Outcome :=
  if a.filtered then
    { err := some "cannot save a filtered policy", adapter := a, store := s, writes := [] }
  else
    let it := s.DocumentRefs a.collectionName
    let batch : WriteBatch := {}
    let batch := it.foldl (fun batch doc => batch.Delete doc) batch
    let batch := stageSection env a (model.sec (str "p")) batch
    let batch := stageSection env a (model.sec (str "g")) batch
    commitOutcome env a s batch

/-- Method `AddPolicy`. -/
def AddPolicy (env : Env) (a : Adapter) (s : Store) (ptype : GoString)
    (rule : List GoString) : Outcome :=
  let line := savePolicyLine env ptype rule
  let doc := collectionDoc a.collectionName line.ID
  match docSet env doc (Data.rule line) s with
  | .ok s1 => { err := none, adapter := a, store := s1, writes := [Write.set doc (Data.rule line)] }
  | .error e => { err := some e, adapter := a, store := s, writes := [Write.set doc (Data.rule line)] }

/-- Method `AddPolicies`. -/
def AddPolicies (env : Env) (a : Adapter) (s : Store) (ptype : GoString)
    (rules : List (List GoString)) : Outcome :=
  let batch : WriteBatch := {}
  let batch := rules.foldl (fun batch rule =>
    let line := savePolicyLine env ptype rule
    let doc := collectionDoc a.collectionName line.ID
    batch.Set doc (Data.strings rule)) batch
  commitOutcome env a s batch

/-- Method `RemovePolicy`. -/
def RemovePolicy (env : Env) (a : Adapter) (s : Store) (ptype : GoString)
    (rule : List GoString) : Outcome :=
  let doc := clientDoc (str "casbin_rule/" ++ policyID env ptype rule)
  let writes := match doc with
    | some d => [Write.delete d]
    | none => []
  match docDelete doc s with
  | .ok s1 => { err := none, adapter := a, store := s1, writes := writes }
  | .error e => { err := some e, adapter := a, store := s, writes := writes }

/-- The loop of `RemovePolicies` and of `RemoveFilteredPolicy` that stages the
deletion of every document the query returns, and the commit. -/
def deleteMatching (env : Env) (a : Adapter) (s : Store) (query : Query) : Outcome :=
  let it := s.Documents query
  let batch : WriteBatch := {}
  let batch := it.foldl (fun batch doc => batch.Delete doc.1) batch
  commitOutcome env a s batch

/-- Method `RemovePolicies`. -/
def RemovePolicies (env : Env) (a : Adapter) (s : Store) (ptype : GoString)
    (_rules : List (List GoString)) : Outcome :=
  let query := Query.Where { collection := a.collectionName } (str "p_type") ptype
  deleteMatching env a s query

/-- Method `RemoveFilteredPolicy`; `none` when an index expression panics. -/
def RemoveFilteredPolicy (env : Env) (a : Adapter) (s : Store) (ptype : GoString)
    (fieldIndex : Int) (fieldValues : List GoString) : Option Outcome :=
  match removeFilteredQuery a.collectionName ptype fieldIndex fieldValues with
  | none => none
  | some query => some (deleteMatching env a s query)

/-- The record shape documented by the struct tags of `CasbinRule`: fields
`id`, `pType` and `v0` .. `v5`. -/
def documentedShape (r : CasbinRule) : Fields :=
  [(str "id", r.ID), (str "pType", r.PType), (str "v0", r.V0), (str "v1", r.V1),
   (str "v2", r.V2), (str "v3", r.V3), (str "v4", r.V4), (str "v5", r.V5)]

/-- The records of one section: `savePolicyLine(ptype, rule)` for every rule
listed under every rule-type, in the order in which they are written. -/
def sectionRecords (env : Env) (sec : AssertionMap) : List CasbinRule :=
  sec.flatMap (fun e => e.2.Policy.map (savePolicyLine env e.1))

/-- The records of the model: those of its sections `p` and `g`. -/
def modelRecords (env : Env) (model : Model) : List CasbinRule :=
  sectionRecords env (model.sec (str "p")) ++ sectionRecords env (model.sec (str "g"))

/-- An environment for evaluating examples. -/
def sampleEnv : Env := { Checksum := sampleChecksum, toFields := documentedShape }

/-! ## Definitions used to state the properties -/

/-- What `String` writes for one slot: the separator and the value, or
nothing when the value is empty. -/
def emitted (v : GoString) : GoString :=
  if v.length > 0 then str ", " ++ v else []

/-- The predicate the specification asks for on slot `k`: `v{k} == values[k - i]`
when `i <= k`, `k < i + len(values)` and `values[k - i]` is not empty. -/
def slotPredicate (i : Int) (values : List GoString) (k : Nat) :
    Option (GoString × GoString) :=
  if i ≤ k ∧ (k : Int) < i + values.length then
    match values[(k - i).toNat]? with
    | some v => if v ≠ str "" then some (slotPath k, v) else none
    | none => none
  else none

/-- The write that `SavePolicy` stages for a record. -/
def setRecord (name : GoString) (r : CasbinRule) : Write :=
  Write.set (collectionDoc name r.ID) (Data.rule r)

/-- A model with two `p` rules and one `g` rule. -/
def sampleModel : Model :=
  [(str "p", [(str "p", Assertion.mk [[str "alice", str "data1", str "read"],
                                       [str "bob", str "data2", str "write"]])]),
   (str "g", [(str "g", Assertion.mk [[str "alice", str "admin"]])])]

/-- A store whose collection `casbin_rule` holds one document. -/
def sampleStore : Store :=
  [(DocRef.mk (str "casbin_rule") (str "old"), [(str "pType", str "p")])]

/-! ## Go strings: basic facts -/

theorem str_empty : str "" = [] := by decide

theorem str_comma : str "," = [44] := by decide

/-! ## Rule codec: encoding -/

theorem hexDigit_lower : ∀ n < 16,
    (48 ≤ (hexDigit n).toNat ∧ (hexDigit n).toNat ≤ 57) ∨
    (97 ≤ (hexDigit n).toNat ∧ (hexDigit n).toNat ≤ 102) := by
  decide

/-- The rendering `%x` of a byte array: two characters per byte, each one of
`0` .. `9` or `a` .. `f`. -/
theorem sprintfHex_lower (sum : List UInt8) :
    (sprintfHex sum).length = 2 * sum.length ∧
    ∀ c ∈ sprintfHex sum,
      (48 ≤ c.toNat ∧ c.toNat ≤ 57) ∨ (97 ≤ c.toNat ∧ c.toNat ≤ 102) := by
  induction sum with
  | nil => exact ⟨rfl, fun c hc => absurd hc (List.not_mem_nil c)⟩
  | cons b bs ih =>
    have hb : b.toNat < 256 := b.toNat_lt
    have e : sprintfHex (b :: bs)
        = hexDigit (b.toNat / 16) :: hexDigit (b.toNat % 16) :: sprintfHex bs := by
      simp [sprintfHex]
    rw [e]
    refine ⟨by simp [ih.1]; omega, ?_⟩
    intro c hc
    rcases List.mem_cons.mp hc with h | h
    · rw [h]; exact hexDigit_lower _ (by omega)
    · rcases List.mem_cons.mp h with h | h
      · rw [h]; exact hexDigit_lower _ (Nat.mod_lt _ (by omega))
      · exact ih.2 c h

/-- C1. For every rule-type `t` and every field list `f` of at most six
values, `savePolicyLine(t, f)` has `PType = t`, slot `V_k = f[k]` for every
`k < len(f)`, the empty string in every slot `k` with `len(f) <= k <= 5`, and
its `ID` is the rendering `%x` of the checksum (seed 0) of the bytes of the
comma-joined sequence `(t, f[0], ..., f[len(f)-1])`: two lower-case
hexadecimal digits per byte of the checksum. -/
theorem savePolicyLine_record (env : Env) (t : GoString) (f : List GoString)
    (hf : f.length ≤ 6) :
    (savePolicyLine env t f).PType = t ∧
    (∀ k, k < f.length → f[k]? = some ((savePolicyLine env t f).slot k)) ∧
    (∀ k, f.length ≤ k → k ≤ 5 → (savePolicyLine env t f).slot k = str "") ∧
    (savePolicyLine env t f).ID
      = sprintfHex (env.Checksum 0 (stringsJoin (t :: f) (str ","))) ∧
    (savePolicyLine env t f).ID.length
      = 2 * (env.Checksum 0 (stringsJoin (t :: f) (str ","))).length ∧
    (∀ c ∈ (savePolicyLine env t f).ID,
      (48 ≤ c.toNat ∧ c.toNat ≤ 57) ∨ (97 ≤ c.toNat ∧ c.toNat ≤ 102)) := by
  have hid : (savePolicyLine env t f).ID
      = sprintfHex (env.Checksum 0 (stringsJoin (t :: f) (str ","))) := rfl
  refine ⟨?_, ?_, ?_, hid, ?_, ?_⟩
  · rcases f with _ | ⟨a, _ | ⟨b, _ | ⟨c, _ | ⟨d, _ | ⟨e, _ | ⟨g, _ | ⟨h, rest⟩⟩⟩⟩⟩⟩⟩ <;> rfl
  · rcases f with _ | ⟨a, _ | ⟨b, _ | ⟨c, _ | ⟨d, _ | ⟨e, _ | ⟨g, _ | ⟨h, rest⟩⟩⟩⟩⟩⟩⟩
    case cons.cons.cons.cons.cons.cons.cons => simp at hf
    all_goals
      intro k hk
      simp only [List.length_cons, List.length_nil] at hk
      interval_cases k <;> rfl
  · rw [str_empty]
    rcases f with _ | ⟨a, _ | ⟨b, _ | ⟨c, _ | ⟨d, _ | ⟨e, _ | ⟨g, _ | ⟨h, rest⟩⟩⟩⟩⟩⟩⟩
    case cons.cons.cons.cons.cons.cons.cons => simp at hf
    all_goals
      intro k hk hk5
      simp only [List.length_cons, List.length_nil] at hk
      interval_cases k <;> rfl
  · rw [hid]; exact (sprintfHex_lower _).1
  · rw [hid]; exact (sprintfHex_lower _).2

/-- Witness for C1: `Encode("p", ["alice","data1","read"])`. -/
theorem savePolicyLine_record_witness :
    [str "alice", str "data1", str "read"].length ≤ 6 ∧
    (savePolicyLine sampleEnv (str "p") [str "alice", str "data1", str "read"]).V0 = str "alice" ∧
    (savePolicyLine sampleEnv (str "p") [str "alice", str "data1", str "read"]).V1 = str "data1" ∧
    (savePolicyLine sampleEnv (str "p") [str "alice", str "data1", str "read"]).V2 = str "read" ∧
    (savePolicyLine sampleEnv (str "p") [str "alice", str "data1", str "read"]).V3 = str "" ∧
    (savePolicyLine sampleEnv (str "p") [str "alice", str "data1", str "read"]).V4 = str "" ∧
    (savePolicyLine sampleEnv (str "p") [str "alice", str "data1", str "read"]).V5 = str "" ∧
    (savePolicyLine sampleEnv (str "p") [str "alice", str "data1", str "read"]).PType = str "p" ∧
    (savePolicyLine sampleEnv (str "p") [str "alice", str "data1", str "read"]).ID
      = sprintfHex (sampleEnv.Checksum 0 (str "p,alice,data1,read")) :=
  have h := savePolicyLine_record sampleEnv (str "p") [str "alice", str "data1", str "read"]
    (by decide)
  ⟨by decide,
   (Option.some.inj (h.2.1 0 (by decide))).symm,
   (Option.some.inj (h.2.1 1 (by decide))).symm,
   (Option.some.inj (h.2.1 2 (by decide))).symm,
   h.2.2.1 3 (by decide) (by decide),
   h.2.2.1 4 (by decide) (by decide),
   h.2.2.1 5 (by decide) (by decide),
   h.1,
   h.2.2.2.1.trans (by decide)⟩

/-! ## Rule codec: the line of a record -/

theorem emitted_nil : emitted [] = [] := rfl

theorem emit_eq (sb v : GoString) :
    (if v.length > 0 then sb ++ str ", " ++ v else sb) = sb ++ emitted v := by
  unfold emitted
  split_ifs <;> simp [List.append_assoc]

theorem emitted_cons (v : GoString) (l : List GoString) :
    ((((v :: l).filter (fun v => decide (v ≠ str ""))).map
        (fun v => str ", " ++ v)).flatten)
      = emitted v ++ (((l.filter (fun v => decide (v ≠ str ""))).map
        (fun v => str ", " ++ v)).flatten) := by
  rw [str_empty]
  cases v with
  | nil => simp [emitted]
  | cons x xs => simp [emitted]

theorem String_eq (r : CasbinRule) :
    r.String = r.PType ++ (emitted r.V0 ++ (emitted r.V1 ++ (emitted r.V2 ++
      (emitted r.V3 ++ (emitted r.V4 ++ emitted r.V5))))) := by
  simp only [CasbinRule.String, emit_eq]
  simp only [List.nil_append, List.append_assoc]

/-- C3. Round trip: for every rule-type `t` and every field list `f` of at
most six values, the line `savePolicyLine(t, f).String()` is `t` followed by
every non-empty value of `f`, in the original order, each preceded by the
separator `", "`; an empty value does not stop later values from being
emitted. -/
theorem savePolicyLine_String (env : Env) (t : GoString) (f : List GoString)
    (hf : f.length ≤ 6) :
    (savePolicyLine env t f).String
      = t ++ (((f.filter (fun v => decide (v ≠ str ""))).map
          (fun v => str ", " ++ v)).flatten) := by
  rw [String_eq]
  rcases f with _ | ⟨a, _ | ⟨b, _ | ⟨c, _ | ⟨d, _ | ⟨e, _ | ⟨g, _ | ⟨h, rest⟩⟩⟩⟩⟩⟩⟩
  case cons.cons.cons.cons.cons.cons.cons => simp at hf
  case nil =>
    show t ++ (emitted [] ++ (emitted [] ++ (emitted [] ++ (emitted [] ++
      (emitted [] ++ emitted []))))) = _
    simp [emitted_nil]
  case cons.nil =>
    show t ++ (emitted a ++ (emitted [] ++ (emitted [] ++ (emitted [] ++
      (emitted [] ++ emitted []))))) = _
    simp only [emitted_cons, emitted_nil, List.filter_nil, List.map_nil, List.flatten_nil,
      List.append_nil]
  case cons.cons.nil =>
    show t ++ (emitted a ++ (emitted b ++ (emitted [] ++ (emitted [] ++
      (emitted [] ++ emitted []))))) = _
    simp only [emitted_cons, emitted_nil, List.filter_nil, List.map_nil, List.flatten_nil,
      List.append_nil]
  case cons.cons.cons.nil =>
    show t ++ (emitted a ++ (emitted b ++ (emitted c ++ (emitted [] ++
      (emitted [] ++ emitted []))))) = _
    simp only [emitted_cons, emitted_nil, List.filter_nil, List.map_nil, List.flatten_nil,
      List.append_nil]
  case cons.cons.cons.cons.nil =>
    show t ++ (emitted a ++ (emitted b ++ (emitted c ++ (emitted d ++
      (emitted [] ++ emitted []))))) = _
    simp only [emitted_cons, emitted_nil, List.filter_nil, List.map_nil, List.flatten_nil,
      List.append_nil]
  case cons.cons.cons.cons.cons.nil =>
    show t ++ (emitted a ++ (emitted b ++ (emitted c ++ (emitted d ++
      (emitted e ++ emitted []))))) = _
    simp only [emitted_cons, emitted_nil, List.filter_nil, List.map_nil, List.flatten_nil,
      List.append_nil]
  case cons.cons.cons.cons.cons.cons.nil =>
    show t ++ (emitted a ++ (emitted b ++ (emitted c ++ (emitted d ++
      (emitted e ++ emitted g))))) = _
    simp only [emitted_cons, emitted_nil, List.filter_nil, List.map_nil, List.flatten_nil,
      List.append_nil]

/-- Witness for C3: the rule `p, alice, data1, read`. -/
theorem savePolicyLine_String_witness :
    [str "alice", str "data1", str "read"].length ≤ 6 ∧
    (savePolicyLine sampleEnv (str "p") [str "alice", str "data1", str "read"]).String
      = str "p, alice, data1, read" :=
  ⟨by decide,
   (savePolicyLine_String sampleEnv (str "p") [str "alice", str "data1", str "read"]
     (by decide)).trans (by decide)⟩

/-! ## Filter translator -/

theorem wrapInt_of_range (x : Int) (h1 : -2 ^ 63 ≤ x) (h2 : x < 2 ^ 63) : wrapInt x = x := by
  unfold wrapInt
  omega

/-- One `if` statement of `RemoveFilteredPolicy` reads inside the value list
and adds the predicate of its slot, or nothing. -/
theorem whereSlot_eq (k : Nat) (hk : k ≤ 5) (i : Int) (values : List GoString) (query : Query)
    (hlo : -2 ^ 63 ≤ i) (hlen : (values.length : Int) + 5 < 2 ^ 63) :
    whereSlot k (slotPath k) i (wrapInt (i + values.length)) values query
      = some { query with filters := query.filters ++ (slotPredicate i values k).toList } := by
  unfold whereSlot slotPredicate
  by_cases hik : i ≤ (k : Int)
  · have hw : wrapInt (i + values.length) = i + values.length :=
      wrapInt_of_range _ (by omega) (by omega)
    rw [hw]
    by_cases hidx : (k : Int) < i + values.length
    · have hw2 : wrapInt ((k : Int) - i) = (k : Int) - i :=
        wrapInt_of_range _ (by omega) (by omega)
      have hin : ((k : Int) - i).toNat < values.length := by omega
      have hget : values[((k : Int) - i).toNat]?
          = some (values.get ⟨((k : Int) - i).toNat, hin⟩) := List.getElem?_eq_getElem hin
      have hidx2 : i + (values.length : Int) > (k : Int) := hidx
      have hnn : (0 : Int) ≤ (k : Int) - i ∧ (k : Int) - i < (values.length : Int) := by
        constructor <;> omega
      simp only [hik, hidx, hidx2, and_self, if_true, hw2, index, hnn, hget]
      split_ifs <;> simp [Query.Where]
    · have hidx2 : ¬ (i + (values.length : Int) > (k : Int)) := by omega
      simp [hik, hidx, hidx2]
  · simp [hik]

theorem slotPath_eq :
    slotPath 0 = str "v0" ∧ slotPath 1 = str "v1" ∧ slotPath 2 = str "v2" ∧
    slotPath 3 = str "v3" ∧ slotPath 4 = str "v4" ∧ slotPath 5 = str "v5" := by
  decide

theorem slotPath_ne_p_type (k : Nat) : slotPath k ≠ str "p_type" := by
  intro h
  have h2 := congrArg List.length h
  rw [show str "p_type" = [112, 95, 116, 121, 112, 101] from by decide] at h2
  simp [slotPath, show str "v" = [118] from by decide] at h2

theorem slotPath_inj (j k : Nat) (hj : j ≤ 5) (hk : k ≤ 5) (h : slotPath j = slotPath k) :
    j = k := by
  interval_cases j <;> interval_cases k <;> first | rfl | (revert h; decide)

theorem mem_slotPredicate (i : Int) (values : List GoString) (j k : Nat) (hj : j ≤ 5)
    (hk : k ≤ 5) (v : GoString) :
    (slotPath k, v) ∈ (slotPredicate i values j).toList ↔
      (j = k ∧ i ≤ (k : Int) ∧ (k : Int) < i + values.length ∧
        values[((k : Int) - i).toNat]? = some v ∧ v ≠ str "") := by
  unfold slotPredicate
  constructor
  · intro h
    split_ifs at h with hc
    · cases hg : values[((j : Int) - i).toNat]? with
      | none => rw [hg] at h; simp at h
      | some w =>
        rw [hg] at h
        simp only at h
        split_ifs at h with hw
        · simp only [Option.toList_some, List.mem_singleton, Prod.mk.injEq] at h
          have hjk : j = k := (slotPath_inj k j hk hj h.1).symm
          subst hjk
          exact ⟨rfl, hc.1, hc.2, by rw [hg, h.2], by rw [h.2]; exact hw⟩
        · simp at h
    · simp at h
  · rintro ⟨rfl, h1, h2, h3, h4⟩
    simp [h1, h2, h3, h4]

/-- C2. For every `fieldIndex` `i` of type `int` (negative allowed) and every
list of match values, `RemoveFilteredPolicy` builds its query without reading
outside the value list (no index expression panics), and for every slot
`k = 0 .. 5` the query holds the predicate `v{k} == v` if and only if `i <= k`,
`k < i + len(values)`, `v = values[k - i]` and `v` is not empty. The
predicates of the query are the one on `p_type` followed by those, in the
order of the slots, so there is no other predicate on `v0` .. `v5`. -/
theorem removeFilteredQuery_predicates (coll ptype : GoString) (i : Int)
    (values : List GoString)
    (hlo : -2 ^ 63 ≤ i) (hlen : (values.length : Int) + 5 < 2 ^ 63) :
    ∃ q, removeFilteredQuery coll ptype i values = some q ∧
      q.collection = coll ∧
      (∀ k v, k ≤ 5 →
        ((slotPath k, v) ∈ q.filters ↔
          (i ≤ (k : Int) ∧ (k : Int) < i + values.length ∧
            values[((k : Int) - i).toNat]? = some v ∧ v ≠ str ""))) ∧
      q.filters = (str "p_type", ptype) ::
        (slotPredicate i values 0).toList ++ (slotPredicate i values 1).toList ++
        (slotPredicate i values 2).toList ++ (slotPredicate i values 3).toList ++
        (slotPredicate i values 4).toList ++ (slotPredicate i values 5).toList := by
  obtain ⟨p0, p1, p2, p3, p4, p5⟩ := slotPath_eq
  have h0 := fun q => whereSlot_eq 0 (by omega) i values q hlo hlen
  have h1 := fun q => whereSlot_eq 1 (by omega) i values q hlo hlen
  have h2 := fun q => whereSlot_eq 2 (by omega) i values q hlo hlen
  have h3 := fun q => whereSlot_eq 3 (by omega) i values q hlo hlen
  have h4 := fun q => whereSlot_eq 4 (by omega) i values q hlo hlen
  have h5 := fun q => whereSlot_eq 5 (by omega) i values q hlo hlen
  rw [p0] at h0; rw [p1] at h1; rw [p2] at h2; rw [p3] at h3; rw [p4] at h4; rw [p5] at h5
  simp only [Nat.cast_ofNat, Nat.cast_zero, Nat.cast_one] at h0 h1 h2 h3 h4 h5
  unfold removeFilteredQuery
  simp only [h0, h1, h2, h3, h4, h5, Option.bind_eq_bind, Option.some_bind, Option.pure_def,
    bind_pure_comp, Query.Where]
  have hlist : ([] ++ [(str "p_type", ptype)] ++ (slotPredicate i values 0).toList ++
        (slotPredicate i values 1).toList ++ (slotPredicate i values 2).toList ++
        (slotPredicate i values 3).toList ++ (slotPredicate i values 4).toList ++
        (slotPredicate i values 5).toList)
      = (str "p_type", ptype) ::
        (slotPredicate i values 0).toList ++ (slotPredicate i values 1).toList ++
        (slotPredicate i values 2).toList ++ (slotPredicate i values 3).toList ++
        (slotPredicate i values 4).toList ++ (slotPredicate i values 5).toList := by
    simp
  refine ⟨_, rfl, rfl, ?_, hlist⟩
  intro k v hk
  show (slotPath k, v) ∈ ([] ++ [(str "p_type", ptype)] ++ (slotPredicate i values 0).toList ++
        (slotPredicate i values 1).toList ++ (slotPredicate i values 2).toList ++
        (slotPredicate i values 3).toList ++ (slotPredicate i values 4).toList ++
        (slotPredicate i values 5).toList) ↔ _
  have hp : (slotPath k, v) ≠ (str "p_type", ptype) := fun h =>
    slotPath_ne_p_type k (congrArg Prod.fst h)
  simp only [List.mem_append, List.mem_singleton, List.not_mem_nil, false_or, hp,
    mem_slotPredicate i values _ k (by omega : (0:Nat) ≤ 5) hk,
    mem_slotPredicate i values _ k (by omega : (1:Nat) ≤ 5) hk,
    mem_slotPredicate i values _ k (by omega : (2:Nat) ≤ 5) hk,
    mem_slotPredicate i values _ k (by omega : (3:Nat) ≤ 5) hk,
    mem_slotPredicate i values _ k (by omega : (4:Nat) ≤ 5) hk,
    mem_slotPredicate i values _ k (by omega : (5:Nat) ≤ 5) hk]
  constructor
  · rintro (((((h | h) | h) | h) | h) | h) <;> exact h.2
  · intro h
    interval_cases k
    · exact Or.inl (Or.inl (Or.inl (Or.inl (Or.inl ⟨rfl, h⟩))))
    · exact Or.inl (Or.inl (Or.inl (Or.inl (Or.inr ⟨rfl, h⟩))))
    · exact Or.inl (Or.inl (Or.inl (Or.inr ⟨rfl, h⟩)))
    · exact Or.inl (Or.inl (Or.inr ⟨rfl, h⟩))
    · exact Or.inl (Or.inr ⟨rfl, h⟩)
    · exact Or.inr ⟨rfl, h⟩

/-- Witness for C2: `fieldIndex = 1` with the value `alice` constrains only
`v1`; the hypotheses hold there. -/
theorem removeFilteredQuery_predicates_witness :
    (-2 ^ 63 ≤ (1 : Int)) ∧ ((([str "alice"] : List GoString).length : Int) + 5 < 2 ^ 63) ∧
    ∃ q, removeFilteredQuery (str "casbin_rule") (str "p") 1 [str "alice"] = some q ∧
      q.filters = [(str "p_type", str "p"), (str "v1", str "alice")] :=
  ⟨by decide, by decide,
   match removeFilteredQuery_predicates (str "casbin_rule") (str "p") 1 [str "alice"]
     (by decide) (by decide) with
   | ⟨q, hq, _, _, hf⟩ => ⟨q, hq, hf.trans (by decide)⟩⟩

/-- The two filters named by the specification, evaluated. -/
theorem removeFilteredQuery_examples :
    removeFilteredQuery (str "casbin_rule") (str "p") 1 [str "alice"]
      = some { collection := str "casbin_rule",
               filters := [(str "p_type", str "p"), (str "v1", str "alice")] } ∧
    removeFilteredQuery (str "casbin_rule") (str "p") 0 [str "alice", str "read"]
      = some { collection := str "casbin_rule",
               filters := [(str "p_type", str "p"), (str "v0", str "alice"),
                           (str "v1", str "read")] } ∧
    removeFilteredQuery (str "casbin_rule") (str "p") (-1) [str "x", str "alice", str "", str "z"]
      = some { collection := str "casbin_rule",
               filters := [(str "p_type", str "p"), (str "v0", str "alice"),
                           (str "v2", str "z")] } := by
  decide

/-! ## SavePolicy on a filtered adapter -/

/-- C5. On an adapter whose filtered flag is set, for every model and every
store content, `SavePolicy` returns an error, issues no write (no delete or
set is staged or committed), leaves the store unchanged and leaves the
filtered flag set. -/
theorem SavePolicy_filtered (env : Env) (a : Adapter) (s : Store) (model : Model)
    (h : a.filtered = true) :
    (SavePolicy env a s model).err = some "cannot save a filtered policy" ∧
    (SavePolicy env a s model).writes = [] ∧
    (SavePolicy env a s model).store = s ∧
    (SavePolicy env a s model).adapter = a ∧
    (SavePolicy env a s model).adapter.filtered = true := by
  simp [SavePolicy, h]

/-- Witness for C5: a filtered adapter over a store with one document and a
model with one rule. -/
theorem SavePolicy_filtered_witness :
    (Adapter.mk (str "casbin_rule") true).filtered = true ∧
    (SavePolicy sampleEnv (Adapter.mk (str "casbin_rule") true)
        [(DocRef.mk (str "casbin_rule") (str "old"), [])]
        [(str "p", [(str "p", Assertion.mk [[str "alice", str "data1", str "read"]])])]).err
      = some "cannot save a filtered policy" ∧
    (SavePolicy sampleEnv (Adapter.mk (str "casbin_rule") true)
        [(DocRef.mk (str "casbin_rule") (str "old"), [])]
        [(str "p", [(str "p", Assertion.mk [[str "alice", str "data1", str "read"]])])]).store
      = [(DocRef.mk (str "casbin_rule") (str "old"), [])] :=
  have h := SavePolicy_filtered sampleEnv (Adapter.mk (str "casbin_rule") true)
    [(DocRef.mk (str "casbin_rule") (str "old"), [])]
    [(str "p", [(str "p", Assertion.mk [[str "alice", str "data1", str "read"]])])] rfl
  ⟨rfl, h.1, h.2.2.1⟩

/-! ## Construction -/

/-- `NewAdapter` returns the default adapter whatever options it is given. -/
theorem NewAdapter_eq (initErr : Option GoError) (options : List AdapterOption) :
    (NewAdapter initErr options).1 = { collectionName := str "casbin_rule", filtered := false } :=
  rfl

/-- C10, the code at the failing input: `NewAdapter(Collection("rules"))`
returns an adapter whose collection name is `casbin_rule`, not the name
obtained by applying the option to the default adapter; without options the
adapter has the default name and a clear filtered flag. -/
theorem NewAdapter_ignores_Collection :
    (NewAdapter none [Collection (str "rules")]).1.collectionName = str "casbin_rule" ∧
    ([Collection (str "rules")].foldl (fun a (o : AdapterOption) => o a)
        { collectionName := str "casbin_rule", filtered := false }).collectionName
      = str "rules" ∧
    (NewAdapter none [Collection (str "rules")]).1.collectionName ≠ str "rules" ∧
    (NewAdapter none []).1 = { collectionName := str "casbin_rule", filtered := false } := by
  decide

/-! ## AddPolicies -/

/-- Staging one write per element of a list appends the writes in order. -/
theorem foldl_stage {α : Type} (g : α → Write) (l : List α) (b : WriteBatch) :
    l.foldl (fun batch x => (WriteBatch.mk (batch.writes ++ [g x]))) b
      = WriteBatch.mk (b.writes ++ l.map g) := by
  induction l generalizing b with
  | nil => simp
  | cons x xs ih =>
    simp only [List.foldl_cons, ih, List.map_cons, List.append_assoc, List.singleton_append]

theorem commitOutcome_writes (env : Env) (a : Adapter) (s : Store) (b : WriteBatch) :
    (commitOutcome env a s b).writes = b.writes := by
  unfold commitOutcome
  cases b.Commit env s <;> rfl

theorem commitOutcome_adapter (env : Env) (a : Adapter) (s : Store) (b : WriteBatch) :
    (commitOutcome env a s b).adapter = a := by
  unfold commitOutcome
  cases b.Commit env s <;> rfl

/-- The batch `AddPolicies` commits. -/
theorem AddPolicies_eq (env : Env) (a : Adapter) (s : Store) (ptype : GoString)
    (rules : List (List GoString)) :
    AddPolicies env a s ptype rules
      = commitOutcome env a s (WriteBatch.mk (rules.map (fun rule =>
          Write.set (collectionDoc a.collectionName (savePolicyLine env ptype rule).ID)
            (Data.strings rule)))) := by
  show commitOutcome env a s (rules.foldl (fun batch rule => WriteBatch.mk (batch.writes ++
      [Write.set (collectionDoc a.collectionName (savePolicyLine env ptype rule).ID)
        (Data.strings rule)])) (WriteBatch.mk [])) = _
  rw [foldl_stage]
  simp

/-- The writes `AddPolicies` stages carry the raw rule, a `[]string`. -/
theorem AddPolicies_writes (env : Env) (a : Adapter) (s : Store) (ptype : GoString)
    (rules : List (List GoString)) :
    (AddPolicies env a s ptype rules).writes
      = rules.map (fun rule =>
          Write.set (collectionDoc a.collectionName (savePolicyLine env ptype rule).ID)
            (Data.strings rule)) := by
  rw [AddPolicies_eq, commitOutcome_writes]

/-- `AddPolicies` never changes the store and always returns an error: a
non-empty batch holds a write whose data is not a document, an empty batch is
refused. -/
theorem AddPolicies_fails (env : Env) (a : Adapter) (s : Store) (ptype : GoString)
    (rules : List (List GoString)) :
    (AddPolicies env a s ptype rules).store = s ∧
    (AddPolicies env a s ptype rules).err ≠ none := by
  have hc : ∀ b : WriteBatch, (b.writes = [] ∨ ∃ w ∈ b.writes, Write.valid env w = false) →
      (commitOutcome env a s b).store = s ∧ (commitOutcome env a s b).err ≠ none := by
    intro b hb
    unfold commitOutcome WriteBatch.Commit
    rcases hb with hb | ⟨w, hw, hv⟩
    · simp [hb]
    · have : ¬ (b.writes.all (Write.valid env) = true) := by
        simp only [List.all_eq_true, not_forall]
        exact ⟨w, hw, by simp [hv]⟩
      simp [this]
  rw [AddPolicies_eq]
  apply hc
  cases rules with
  | nil => exact Or.inl rfl
  | cons r rs =>
    exact Or.inr ⟨_, List.mem_cons_self _ _, rfl⟩

/-- C8, the code at the failing input: `AddPolicies("p", [["alice","data1","read"]])`
on an empty collection stages `Set(doc, rule)` with the raw `[]string`, not
the encoded record; the commit fails and the collection stays empty, whereas
`AddPolicy("p", ["alice","data1","read"])` succeeds and stores the record. -/
theorem AddPolicies_stages_raw_rule :
    (AddPolicies sampleEnv (Adapter.mk (str "casbin_rule") false) [] (str "p")
        [[str "alice", str "data1", str "read"]]).writes
      = [Write.set
          (collectionDoc (str "casbin_rule")
            (policyID sampleEnv (str "p") [str "alice", str "data1", str "read"]))
          (Data.strings [str "alice", str "data1", str "read"])] ∧
    (AddPolicies sampleEnv (Adapter.mk (str "casbin_rule") false) [] (str "p")
        [[str "alice", str "data1", str "read"]]).writes
      ≠ [Write.set
          (collectionDoc (str "casbin_rule")
            (policyID sampleEnv (str "p") [str "alice", str "data1", str "read"]))
          (Data.rule (savePolicyLine sampleEnv (str "p") [str "alice", str "data1", str "read"]))] ∧
    (AddPolicies sampleEnv (Adapter.mk (str "casbin_rule") false) [] (str "p")
        [[str "alice", str "data1", str "read"]]).err ≠ none ∧
    (AddPolicies sampleEnv (Adapter.mk (str "casbin_rule") false) [] (str "p")
        [[str "alice", str "data1", str "read"]]).store = [] ∧
    (AddPolicy sampleEnv (Adapter.mk (str "casbin_rule") false) [] (str "p")
        [str "alice", str "data1", str "read"]).err = none ∧
    (AddPolicy sampleEnv (Adapter.mk (str "casbin_rule") false) [] (str "p")
        [str "alice", str "data1", str "read"]).store
      = [(collectionDoc (str "casbin_rule")
            (policyID sampleEnv (str "p") [str "alice", str "data1", str "read"]),
          documentedShape
            (savePolicyLine sampleEnv (str "p") [str "alice", str "data1", str "read"]))] := by
  decide

/-! ## RemovePolicies -/

/-- A document of the documented shape has no field `p_type`. -/
theorem fieldValue_documentedShape_p_type (r : CasbinRule) :
    fieldValue (documentedShape r) (str "p_type") = none ∧
    fieldValue (documentedShape r) (str "pType") = some r.PType := by
  constructor
  · simp only [fieldValue, documentedShape, List.find?_cons,
      show decide (str "id" = str "p_type") = false from by decide,
      show decide (str "pType" = str "p_type") = false from by decide,
      show decide (str "v0" = str "p_type") = false from by decide,
      show decide (str "v1" = str "p_type") = false from by decide,
      show decide (str "v2" = str "p_type") = false from by decide,
      show decide (str "v3" = str "p_type") = false from by decide,
      show decide (str "v4" = str "p_type") = false from by decide,
      show decide (str "v5" = str "p_type") = false from by decide]
    rfl
  · simp only [fieldValue, documentedShape, List.find?_cons,
      show decide (str "id" = str "pType") = false from by decide,
      show decide (str "pType" = str "pType") = true from by decide]
    rfl

/-- On a store whose documents all have the documented shape, the query of
`RemovePolicies` returns no document: nothing is staged and nothing is
deleted, whatever the rule-type. -/
theorem RemovePolicies_documentedShape (env : Env) (a : Adapter) (s : Store)
    (ptype : GoString) (rules : List (List GoString))
    (hs : ∀ d ∈ s, ∃ r, d.2 = documentedShape r) :
    (RemovePolicies env a s ptype rules).writes = [] ∧
    (RemovePolicies env a s ptype rules).store = s := by
  have hdocs : s.Documents (Query.Where { collection := a.collectionName } (str "p_type") ptype)
      = [] := by
    unfold Store.Documents
    rw [List.filter_eq_nil_iff]
    intro d hd
    obtain ⟨r, hr⟩ := hs d hd
    simp [Query.matches, Query.Where, hr, (fieldValue_documentedShape_p_type r).1]
  unfold RemovePolicies deleteMatching
  simp only [hdocs, List.foldl_nil]
  constructor
  · rfl
  · rfl

/-- C9, the code at the failing input: on a collection holding the record of
`p, alice, data1, read` and the record of `g, alice, admin` in the documented
shape, `RemovePolicies("p", [])` builds its predicate on the field `p_type`,
which no document has; it stages no deletion, the commit of the empty batch
is refused, and the document whose `pType` is `p` is still in the store
afterwards. -/
theorem RemovePolicies_queries_p_type :
    (Query.Where { collection := str "casbin_rule" } (str "p_type") (str "p")).filters
      = [(str "p_type", str "p")] ∧
    fieldValue (documentedShape
        (savePolicyLine sampleEnv (str "p") [str "alice", str "data1", str "read"]))
      (str "pType") = some (str "p") ∧
    (RemovePolicies sampleEnv (Adapter.mk (str "casbin_rule") false)
        [(DocRef.mk (str "casbin_rule") (str "d1"),
          documentedShape
            (savePolicyLine sampleEnv (str "p") [str "alice", str "data1", str "read"])),
         (DocRef.mk (str "casbin_rule") (str "d2"),
          documentedShape (savePolicyLine sampleEnv (str "g") [str "alice", str "admin"]))]
        (str "p") []).writes = [] ∧
    (RemovePolicies sampleEnv (Adapter.mk (str "casbin_rule") false)
        [(DocRef.mk (str "casbin_rule") (str "d1"),
          documentedShape
            (savePolicyLine sampleEnv (str "p") [str "alice", str "data1", str "read"])),
         (DocRef.mk (str "casbin_rule") (str "d2"),
          documentedShape (savePolicyLine sampleEnv (str "g") [str "alice", str "admin"]))]
        (str "p") []).err = some "firestore: cannot commit empty WriteBatch" ∧
    (RemovePolicies sampleEnv (Adapter.mk (str "casbin_rule") false)
        [(DocRef.mk (str "casbin_rule") (str "d1"),
          documentedShape
            (savePolicyLine sampleEnv (str "p") [str "alice", str "data1", str "read"])),
         (DocRef.mk (str "casbin_rule") (str "d2"),
          documentedShape (savePolicyLine sampleEnv (str "g") [str "alice", str "admin"]))]
        (str "p") []).store.get (DocRef.mk (str "casbin_rule") (str "d1"))
      = some (documentedShape
          (savePolicyLine sampleEnv (str "p") [str "alice", str "data1", str "read"])) := by
  decide

/-! ## RemovePolicy -/

/-- C7, the code at the failing input: on an adapter whose collection name is
`rules`, `AddPolicy("p", ["alice"])` writes the document `rules/<id>` and
`RemovePolicy("p", ["alice"])` then deletes the document `casbin_rule/<id>`;
it returns no error and the document `rules/<id>` is still in the adapter's
collection. -/
theorem RemovePolicy_ignores_collectionName :
    (Collection (str "rules") (NewAdapter none []).1).collectionName = str "rules" ∧
    (AddPolicy sampleEnv (Adapter.mk (str "rules") false) [] (str "p") [str "alice"]).writes
      = [Write.set (DocRef.mk (str "rules") (policyID sampleEnv (str "p") [str "alice"]))
          (Data.rule (savePolicyLine sampleEnv (str "p") [str "alice"]))] ∧
    (RemovePolicy sampleEnv (Adapter.mk (str "rules") false)
        (AddPolicy sampleEnv (Adapter.mk (str "rules") false) [] (str "p") [str "alice"]).store
        (str "p") [str "alice"]).writes
      = [Write.delete
          (DocRef.mk (str "casbin_rule") (policyID sampleEnv (str "p") [str "alice"]))] ∧
    (RemovePolicy sampleEnv (Adapter.mk (str "rules") false)
        (AddPolicy sampleEnv (Adapter.mk (str "rules") false) [] (str "p") [str "alice"]).store
        (str "p") [str "alice"]).err = none ∧
    (RemovePolicy sampleEnv (Adapter.mk (str "rules") false)
        (AddPolicy sampleEnv (Adapter.mk (str "rules") false) [] (str "p") [str "alice"]).store
        (str "p") [str "alice"]).store.get
          (DocRef.mk (str "rules") (policyID sampleEnv (str "p") [str "alice"]))
      = some (documentedShape (savePolicyLine sampleEnv (str "p") [str "alice"])) ∧
    (Adapter.mk (str "rules") false).docID (policyID sampleEnv (str "p") [str "alice"])
      ≠ str "casbin_rule/" ++ policyID sampleEnv (str "p") [str "alice"] := by
  decide

/-! ## Identity -/

theorem stringsJoin_eq_intercalate (sep : GoString) (xs : List GoString) :
    stringsJoin xs sep = sep.intercalate xs := by
  induction xs with
  | nil => rfl
  | cons a rest ih =>
    cases rest with
    | nil => simp [stringsJoin, List.intercalate]
    | cons b rest =>
      rw [stringsJoin, ih]
      simp [List.intercalate, List.append_assoc]

/-- The joined string determines the sequence when no element holds the
separator byte. -/
theorem policyData_inj (t1 t2 : GoString) (f1 f2 : List GoString)
    (h1 : ∀ x ∈ t1 :: f1, (44 : UInt8) ∉ x) (h2 : ∀ x ∈ t2 :: f2, (44 : UInt8) ∉ x)
    (h : policyData t1 f1 = policyData t2 f2) : t1 = t2 ∧ f1 = f2 := by
  unfold policyData at h
  rw [str_comma, stringsJoin_eq_intercalate, stringsJoin_eq_intercalate] at h
  have e1 := List.splitOn_intercalate _ (44 : UInt8) h1 (List.cons_ne_nil _ _)
  have e2 := List.splitOn_intercalate _ (44 : UInt8) h2 (List.cons_ne_nil _ _)
  rw [h, e2] at e1
  exact List.cons.inj e1.symm

theorem hexDigit_inj : ∀ m < 16, ∀ n < 16, hexDigit m = hexDigit n → m = n := by
  decide

theorem sprintfHex_cons (b : UInt8) (bs : List UInt8) :
    sprintfHex (b :: bs)
      = hexDigit (b.toNat / 16) :: hexDigit (b.toNat % 16) :: sprintfHex bs := by
  simp [sprintfHex]

/-- The hexadecimal rendering determines the bytes. -/
theorem sprintfHex_inj (xs ys : List UInt8) (h : sprintfHex xs = sprintfHex ys) : xs = ys := by
  induction xs generalizing ys with
  | nil =>
    cases ys with
    | nil => rfl
    | cons c cs => rw [sprintfHex_cons] at h; simp [sprintfHex] at h
  | cons b bs ih =>
    cases ys with
    | nil => rw [sprintfHex_cons] at h; simp [sprintfHex] at h
    | cons c cs =>
      rw [sprintfHex_cons, sprintfHex_cons] at h
      have hb : b.toNat < 256 := b.toNat_lt
      have hc : c.toNat < 256 := c.toNat_lt
      have e1 := hexDigit_inj _ (by omega) _ (by omega) (List.cons.inj h).1
      have e2 := hexDigit_inj _ (Nat.mod_lt _ (by omega)) _ (Nat.mod_lt _ (by omega))
        (List.cons.inj (List.cons.inj h).2).1
      have e3 := ih cs (List.cons.inj (List.cons.inj h).2).2
      have : b = c := UInt8.ext (by omega)
      rw [this, e3]

/-- C6, as stated, fails: the rule of type `p` with the single field `a,b`
and the rule of type `p` with the two fields `a` and `b` are different rules,
yet `policyID` passes the same bytes `p,a,b` to the hasher for both, so their
ids are equal without any collision of the hasher. -/
theorem policyData_not_injective :
    ([str "a,b"] : List GoString) ≠ [str "a", str "b"] ∧
    policyData (str "p") [str "a,b"] = str "p,a,b" ∧
    policyData (str "p") [str "a", str "b"] = str "p,a,b" ∧
    policyID sampleEnv (str "p") [str "a,b"] = policyID sampleEnv (str "p") [str "a", str "b"] ∧
    savePolicyLine sampleEnv (str "p") [str "a,b"]
      ≠ savePolicyLine sampleEnv (str "p") [str "a", str "b"] := by
  decide

/-- C6, amended. For any two rules `(t1, f1)` and `(t2, f2)` whose type and
field values hold no comma (byte 44) and that differ in type or in field list,
the byte strings that `policyID` passes to the hasher are different; so the
two ids are equal only when the hasher returns the same checksum for these two
different inputs. -/
theorem policyData_ne_of_no_comma (env : Env) (t1 t2 : GoString) (f1 f2 : List GoString)
    (h1 : ∀ x ∈ t1 :: f1, (44 : UInt8) ∉ x) (h2 : ∀ x ∈ t2 :: f2, (44 : UInt8) ∉ x)
    (hne : t1 ≠ t2 ∨ f1 ≠ f2) :
    policyData t1 f1 ≠ policyData t2 f2 ∧
    (policyID env t1 f1 = policyID env t2 f2 →
      env.Checksum 0 (policyData t1 f1) = env.Checksum 0 (policyData t2 f2)) := by
  constructor
  · intro h
    obtain ⟨e1, e2⟩ := policyData_inj t1 t2 f1 f2 h1 h2 h
    rcases hne with hne | hne
    · exact hne e1
    · exact hne e2
  · intro h
    exact sprintfHex_inj _ _ h

/-- Witness for C6 amended: the rules `p, alice` and `p, bob`. -/
theorem policyData_ne_of_no_comma_witness :
    (∀ x ∈ str "p" :: [str "alice"], (44 : UInt8) ∉ x) ∧
    (∀ x ∈ str "p" :: [str "bob"], (44 : UInt8) ∉ x) ∧
    (str "p" ≠ str "p" ∨ [str "alice"] ≠ [str "bob"]) ∧
    policyData (str "p") [str "alice"] ≠ policyData (str "p") [str "bob"] :=
  ⟨by decide, by decide, by decide,
   (policyData_ne_of_no_comma sampleEnv (str "p") (str "p") [str "alice"] [str "bob"]
     (by decide) (by decide) (by decide)).1⟩

/-! ## The store: reading after writing -/

theorem Store.get_nil (d : DocRef) : Store.get [] d = none := rfl

theorem Store.get_cons (e : DocRef × Fields) (es : Store) (d : DocRef) :
    Store.get (e :: es) d = if e.1 = d then some e.2 else Store.get es d := by
  unfold Store.get
  rw [List.find?_cons]
  by_cases h : e.1 = d
  · simp [h]
  · simp [h]

theorem Store.erase_cons (e : DocRef × Fields) (es : Store) (d : DocRef) :
    Store.erase (e :: es) d = if e.1 = d then Store.erase es d else e :: Store.erase es d := by
  unfold Store.erase
  rw [List.filter_cons]
  by_cases h : e.1 = d
  · simp [h]
  · simp [h]

theorem Store.get_erase (s : Store) (d d2 : DocRef) :
    (s.erase d).get d2 = if d2 = d then none else s.get d2 := by
  induction s with
  | nil => simp [Store.erase, Store.get_nil]
  | cons e es ih =>
    rw [Store.erase_cons, Store.get_cons]
    by_cases h1 : e.1 = d
    · rw [if_pos h1, ih]
      by_cases h2 : d2 = d
      · simp [h2]
      · have h3 : ¬ e.1 = d2 := fun h => h2 (h.symm.trans h1)
        simp [h2, h3]
    · rw [if_neg h1, Store.get_cons, ih]
      by_cases h2 : d2 = d
      · have h3 : ¬ e.1 = d2 := fun h => h1 (h.trans h2)
        simp [h2, h3]
        intro h4
        exact absurd h4 h1
      · simp [h2]

theorem Store.get_put (s : Store) (d d2 : DocRef) (fields : Fields) :
    (s.put d fields).get d2 = if d2 = d then some fields else s.get d2 := by
  unfold Store.put
  rw [Store.get_cons, Store.get_erase]
  by_cases h : d2 = d
  · simp [h]
  · have h2 : ¬ d = d2 := fun e => h e.symm
    simp [h, h2]

theorem Store.get_foldl_erase (refs : List DocRef) (s : Store) (d : DocRef) :
    (refs.foldl Store.erase s).get d = if d ∈ refs then none else s.get d := by
  induction refs generalizing s with
  | nil => simp
  | cons r rs ih =>
    rw [List.foldl_cons, ih, Store.get_erase]
    by_cases h1 : d ∈ rs
    · simp [h1]
    · by_cases h2 : d = r
      · simp [h2]
      · simp [h1, h2]

theorem Store.get_eq_none_of_not_mem (s : Store) (d : DocRef)
    (h : d ∉ s.DocumentRefs d.collection) : s.get d = none := by
  unfold Store.get
  rw [Option.map_eq_none', List.find?_eq_none]
  intro e he h2
  apply h
  unfold Store.DocumentRefs
  rw [List.mem_map]
  refine ⟨e, ?_, of_decide_eq_true h2⟩
  rw [List.mem_filter]
  exact ⟨he, by simpa using congrArg DocRef.collection (of_decide_eq_true h2)⟩

/-- After the documents listed for a collection are deleted, the collection
holds no document. -/
theorem Store.get_after_clear (s : Store) (d : DocRef) :
    ((s.DocumentRefs d.collection).foldl Store.erase s).get d = none := by
  rw [Store.get_foldl_erase]
  split_ifs with h
  · rfl
  · exact Store.get_eq_none_of_not_mem s d h

/-! ## SavePolicy on an adapter that is not filtered -/

theorem stageSection_eq (env : Env) (a : Adapter) (sec : AssertionMap) (b : WriteBatch) :
    stageSection env a sec b
      = WriteBatch.mk (b.writes ++ (sectionRecords env sec).map (setRecord a.collectionName)) := by
  induction sec generalizing b with
  | nil => simp [stageSection, sectionRecords]
  | cons e es ih =>
    have hin : e.2.Policy.foldl (fun batch rule =>
          WriteBatch.mk (batch.writes ++
            [setRecord a.collectionName (savePolicyLine env e.1 rule)])) b
        = WriteBatch.mk (b.writes ++ e.2.Policy.map (fun rule =>
            setRecord a.collectionName (savePolicyLine env e.1 rule))) :=
      foldl_stage _ _ _
    have hstep : stageSection env a (e :: es) b
        = stageSection env a es (e.2.Policy.foldl (fun batch rule =>
          WriteBatch.mk (batch.writes ++
            [setRecord a.collectionName (savePolicyLine env e.1 rule)])) b) := rfl
    rw [hstep, hin, ih]
    simp [sectionRecords, List.map_map, Function.comp_def, List.append_assoc]

/-- The batch `SavePolicy` commits on an adapter that is not filtered: the
deletion of every document listed for the collection, then one `Set` per
record of the model. -/
theorem SavePolicy_eq (env : Env) (a : Adapter) (s : Store) (model : Model)
    (hf : a.filtered = false) :
    SavePolicy env a s model
      = commitOutcome env a s (WriteBatch.mk
          ((s.DocumentRefs a.collectionName).map Write.delete
            ++ (modelRecords env model).map (setRecord a.collectionName))) := by
  have hdel : (s.DocumentRefs a.collectionName).foldl
        (fun batch doc => WriteBatch.mk (batch.writes ++ [Write.delete doc])) (WriteBatch.mk [])
      = WriteBatch.mk ([] ++ (s.DocumentRefs a.collectionName).map Write.delete) :=
    foldl_stage _ _ _
  have h : SavePolicy env a s model
      = commitOutcome env a s (stageSection env a (model.sec (str "g"))
          (stageSection env a (model.sec (str "p"))
            ((s.DocumentRefs a.collectionName).foldl
              (fun batch doc => WriteBatch.mk (batch.writes ++ [Write.delete doc]))
              (WriteBatch.mk [])))) := by
    unfold SavePolicy
    rw [if_neg (by simp [hf])]
    rfl
  rw [h, hdel, stageSection_eq, stageSection_eq]
  simp [modelRecords, List.append_assoc]

theorem valid_setRecord (env : Env) (name : GoString) (r : CasbinRule) :
    Write.valid env (setRecord name r) = true := rfl

/-- A commit that returns no error has applied every staged write, in order. -/
theorem commitOutcome_store (env : Env) (a : Adapter) (s : Store) (b : WriteBatch)
    (hok : (commitOutcome env a s b).err = none) :
    (commitOutcome env a s b).store = b.writes.foldl (applyWrite env) s := by
  unfold commitOutcome WriteBatch.Commit at hok ⊢
  split_ifs at hok ⊢
  simp_all

theorem foldl_applyWrite_delete (env : Env) (refs : List DocRef) (s : Store) :
    (refs.map Write.delete).foldl (applyWrite env) s = refs.foldl Store.erase s := by
  induction refs generalizing s with
  | nil => rfl
  | cons r rs ih => simp only [List.map_cons, List.foldl_cons, ih]; rfl

/-- Reading a document of the collection after the records are written: it is
the record of the model with that id, when the ids of the records tell them
apart; otherwise what the store held before. -/
theorem get_foldl_setRecord (env : Env) (name : GoString) (recs : List CasbinRule)
    (s : Store) (d : DocRef) (fields : Fields)
    (hinj : ∀ r1 ∈ recs, ∀ r2 ∈ recs, r1.ID = r2.ID → r1 = r2) :
    ((recs.map (setRecord name)).foldl (applyWrite env) s).get d = some fields ↔
      ((∃ r ∈ recs, collectionDoc name r.ID = d ∧ fields = env.toFields r) ∨
       ((∀ r ∈ recs, collectionDoc name r.ID ≠ d) ∧ s.get d = some fields)) := by
  induction recs using List.reverseRecOn with
  | nil => simp
  | append_singleton rs r ih =>
    have hinj2 : ∀ r1 ∈ rs, ∀ r2 ∈ rs, r1.ID = r2.ID → r1 = r2 := fun r1 h1 r2 h2 =>
      hinj r1 (List.mem_append_left _ h1) r2 (List.mem_append_left _ h2)
    have ih2 := ih hinj2
    rw [List.map_append, List.foldl_append]
    have hstep : ∀ s2 : Store, ([r].map (setRecord name)).foldl (applyWrite env) s2
        = s2.put (collectionDoc name r.ID) (env.toFields r) := fun _ => rfl
    rw [hstep, Store.get_put]
    by_cases hd : d = collectionDoc name r.ID
    · rw [if_pos hd]
      constructor
      · intro h
        exact Or.inl ⟨r, by simp, hd.symm, (Option.some.inj h).symm⟩
      · rintro (⟨r2, hr2, h1, h2⟩ | ⟨h1, _⟩)
        · have hid : r2.ID = r.ID := by
            have := h1.trans hd
            simpa [collectionDoc] using this
          have : r2 = r := hinj r2 hr2 r (by simp) hid
          rw [h2, this]
        · exact absurd hd.symm (h1 r (by simp))
    · rw [if_neg hd, ih2]
      have hd2 : collectionDoc name r.ID ≠ d := fun h => hd h.symm
      constructor
      · rintro (⟨r2, hr2, h1, h2⟩ | ⟨h1, h2⟩)
        · exact Or.inl ⟨r2, List.mem_append_left _ hr2, h1, h2⟩
        · refine Or.inr ⟨?_, h2⟩
          intro r2 hr2
          rcases List.mem_append.mp hr2 with h | h
          · exact h1 r2 h
          · rw [List.mem_singleton.mp h]; exact hd2
      · rintro (⟨r2, hr2, h1, h2⟩ | ⟨h1, h2⟩)
        · rcases List.mem_append.mp hr2 with h | h
          · exact Or.inl ⟨r2, h, h1, h2⟩
          · rw [List.mem_singleton.mp h] at h1; exact absurd h1 hd2
        · exact Or.inr ⟨fun r2 hr2 => h1 r2 (List.mem_append_left _ hr2), h2⟩

/-- The records of the model are the records `savePolicyLine(ptype, rule)` of
the rules listed under the rule-types of the sections `p` and `g`. -/
theorem mem_modelRecords (env : Env) (model : Model) (r : CasbinRule) :
    r ∈ modelRecords env model ↔
      ∃ sec ptype ast rule, (sec = str "p" ∨ sec = str "g") ∧ (ptype, ast) ∈ model.sec sec ∧
        rule ∈ ast.Policy ∧ r = savePolicyLine env ptype rule := by
  unfold modelRecords sectionRecords
  simp only [List.mem_append, List.mem_flatMap, List.mem_map]
  constructor
  · rintro (⟨e, he, rule, hr, h⟩ | ⟨e, he, rule, hr, h⟩)
    · exact ⟨str "p", e.1, e.2, rule, Or.inl rfl, he, hr, h.symm⟩
    · exact ⟨str "g", e.1, e.2, rule, Or.inr rfl, he, hr, h.symm⟩
  · rintro ⟨sec, ptype, ast, rule, (rfl | rfl), he, hr, h⟩
    · exact Or.inl ⟨(ptype, ast), he, rule, hr, h.symm⟩
    · exact Or.inr ⟨(ptype, ast), he, rule, hr, h.symm⟩

/-- C4, as stated, fails: the model lists under `p` the rule with the single
field `a,b` and then the rule with the two fields `a` and `b`. Both records
get the id of the bytes `p,a,b`; `SavePolicy` succeeds on the empty
collection, the second record replaces the first, and the collection holds
one document, which is not the record of the first rule. -/
theorem SavePolicy_drops_record :
    (Adapter.mk (str "casbin_rule") false).filtered = false ∧
    (SavePolicy sampleEnv (Adapter.mk (str "casbin_rule") false) []
        [(str "p", [(str "p", Assertion.mk [[str "a,b"], [str "a", str "b"]])])]).err = none ∧
    savePolicyLine sampleEnv (str "p") [str "a,b"]
      ∈ modelRecords sampleEnv
          [(str "p", [(str "p", Assertion.mk [[str "a,b"], [str "a", str "b"]])])] ∧
    (SavePolicy sampleEnv (Adapter.mk (str "casbin_rule") false) []
        [(str "p", [(str "p", Assertion.mk [[str "a,b"], [str "a", str "b"]])])]).store.get
          (collectionDoc (str "casbin_rule") (savePolicyLine sampleEnv (str "p") [str "a,b"]).ID)
      ≠ some (sampleEnv.toFields (savePolicyLine sampleEnv (str "p") [str "a,b"])) ∧
    ((SavePolicy sampleEnv (Adapter.mk (str "casbin_rule") false) []
        [(str "p", [(str "p", Assertion.mk [[str "a,b"], [str "a", str "b"]])])]).store.DocumentRefs
          (str "casbin_rule")).length = 1 := by
  decide

/-- C4, amended. For every prior store content and every model no two
different records of which have the same id, when `SavePolicy` is called on an
adapter that is not filtered and returns no error, the adapter's collection
afterwards holds a document with fields `fields` under the identifier `id` if
and only if `fields` is the encoding of a record `savePolicyLine(ptype, rule)`
of the model's `p` and `g` sections whose `ID` is `id`: every record is stored
under its own id, and no document that was in the collection before and is not
one of those records remains. -/
theorem SavePolicy_replaces (env : Env) (a : Adapter) (s : Store) (model : Model)
    (id : GoString) (fields : Fields)
    (hf : a.filtered = false)
    (hok : (SavePolicy env a s model).err = none)
    (hinj : ∀ r1 ∈ modelRecords env model, ∀ r2 ∈ modelRecords env model,
      r1.ID = r2.ID → r1 = r2) :
    (SavePolicy env a s model).store.get (collectionDoc a.collectionName id) = some fields ↔
      ∃ r ∈ modelRecords env model, r.ID = id ∧ fields = env.toFields r := by
  rw [SavePolicy_eq env a s model hf] at hok ⊢
  rw [commitOutcome_store env a s _ hok]
  show (((s.DocumentRefs a.collectionName).map Write.delete
      ++ (modelRecords env model).map (setRecord a.collectionName)).foldl
        (applyWrite env) s).get (collectionDoc a.collectionName id) = some fields ↔ _
  rw [List.foldl_append, foldl_applyWrite_delete,
    get_foldl_setRecord env a.collectionName (modelRecords env model) _ _ fields hinj]
  have hclear : ((s.DocumentRefs a.collectionName).foldl Store.erase s).get
      (collectionDoc a.collectionName id) = none :=
    Store.get_after_clear s (collectionDoc a.collectionName id)
  rw [hclear]
  constructor
  · rintro (⟨r, hr, h1, h2⟩ | ⟨_, h⟩)
    · exact ⟨r, hr, by simpa [collectionDoc] using h1, h2⟩
    · exact absurd h (by simp)
  · rintro ⟨r, hr, h1, h2⟩
    exact Or.inl ⟨r, hr, by rw [h1], h2⟩

/-- Witness for C4 amended: the model with two `p` rules and one `g` rule,
saved over a collection that holds one other document: the hypotheses hold,
the record of `p, alice, data1, read` is stored under its id, the collection
holds three documents and the earlier document is gone. -/
theorem SavePolicy_replaces_witness :
    (Adapter.mk (str "casbin_rule") false).filtered = false ∧
    (SavePolicy sampleEnv (Adapter.mk (str "casbin_rule") false) sampleStore sampleModel).err
      = none ∧
    (∀ r1 ∈ modelRecords sampleEnv sampleModel, ∀ r2 ∈ modelRecords sampleEnv sampleModel,
      r1.ID = r2.ID → r1 = r2) ∧
    (SavePolicy sampleEnv (Adapter.mk (str "casbin_rule") false) sampleStore sampleModel).store.get
      (collectionDoc (str "casbin_rule")
        (policyID sampleEnv (str "p") [str "alice", str "data1", str "read"]))
      = some (documentedShape
          (savePolicyLine sampleEnv (str "p") [str "alice", str "data1", str "read"])) ∧
    ((SavePolicy sampleEnv (Adapter.mk (str "casbin_rule") false) sampleStore
        sampleModel).store.DocumentRefs (str "casbin_rule")).length = 3 ∧
    (SavePolicy sampleEnv (Adapter.mk (str "casbin_rule") false) sampleStore sampleModel).store.get
      (DocRef.mk (str "casbin_rule") (str "old")) = none :=
  ⟨by decide, by decide, by decide,
   (SavePolicy_replaces sampleEnv (Adapter.mk (str "casbin_rule") false) sampleStore sampleModel
      (policyID sampleEnv (str "p") [str "alice", str "data1", str "read"])
      (documentedShape (savePolicyLine sampleEnv (str "p") [str "alice", str "data1", str "read"]))
      (by decide) (by decide) (by decide)).mpr
      ⟨savePolicyLine sampleEnv (str "p") [str "alice", str "data1", str "read"],
        by decide, by decide, by decide⟩,
   by decide, by decide⟩

/-! ## RemovePolicy: the address in general -/

/-- The path `casbin_rule/<id>` denotes the document `<id>` of the collection
`casbin_rule` when the id is not empty and holds no `/`. -/
theorem clientDoc_casbin_rule (id : GoString) (hne : id ≠ []) (hs : (47 : UInt8) ∉ id) :
    clientDoc (str "casbin_rule/" ++ id)
      = some { collection := str "casbin_rule", id := id } := by
  have hc : (47 : UInt8) ∉ str "casbin_rule" := by decide
  have hsplit : (str "casbin_rule/" ++ id).splitOn 47 = [str "casbin_rule", id] := by
    have e := List.splitOn_intercalate [str "casbin_rule", id] (47 : UInt8)
      (by
        intro l hl
        rcases List.mem_cons.mp hl with h | h
        · rw [h]; exact hc
        · rw [List.mem_singleton.mp h]; exact hs)
      (List.cons_ne_nil _ _)
    have e2 : [(47 : UInt8)].intercalate [str "casbin_rule", id] = str "casbin_rule/" ++ id := by
      have e3 : str "casbin_rule/" = str "casbin_rule" ++ [47] := by decide
      rw [e3]
      simp [List.intercalate]
    rw [← e2]
    exact e
  unfold clientDoc
  simp only [hsplit]
  simp [hne, stringsJoin, show ¬ (str "casbin_rule" = []) from by decide]

/-- Whatever the adapter's collection name, `RemovePolicy` deletes the
document `<id>` of the collection `casbin_rule` (the checksum is taken to be
non-empty, as an array of sixteen bytes is). -/
theorem RemovePolicy_target (env : Env) (a : Adapter) (s : Store) (ptype : GoString)
    (rule : List GoString) (hsum : env.Checksum 0 (policyData ptype rule) ≠ []) :
    (RemovePolicy env a s ptype rule).writes
      = [Write.delete { collection := str "casbin_rule", id := policyID env ptype rule }] ∧
    (RemovePolicy env a s ptype rule).store
      = s.erase { collection := str "casbin_rule", id := policyID env ptype rule } ∧
    (RemovePolicy env a s ptype rule).err = none := by
  have hne : policyID env ptype rule ≠ [] := by
    intro h
    have := (sprintfHex_lower (env.Checksum 0 (policyData ptype rule))).1
    have h2 : (sprintfHex (env.Checksum 0 (policyData ptype rule))).length = 0 := by
      show (policyID env ptype rule).length = 0
      rw [h]; rfl
    have h3 : (env.Checksum 0 (policyData ptype rule)).length = 0 := by omega
    exact hsum (List.length_eq_zero.mp h3)
  have hs : (47 : UInt8) ∉ policyID env ptype rule := by
    intro h
    have := (sprintfHex_lower (env.Checksum 0 (policyData ptype rule))).2 47 h
    revert this
    decide
  unfold RemovePolicy
  simp [clientDoc_casbin_rule _ hne hs, docDelete]

end FirestoreAdapter
